import Mathlib

/-!
Shallow embedding of the `platform_cli` tool (compute / storage / DNS guard-clause CLI).

Remote provider state is modelled explicitly: the EC2 world is a list of instances,
the S3 world a list of buckets, the Route53 world a list of hosted zones.  A failed
provider tag-read (botocore `ClientError`) is modelled as `none` in the `tagsRead`
field.  Each command is a pure function from world + arguments to
`Except CmdErr call`: an `.error` value is a handled failure (`SystemExit`) that
issues no state-changing provider call; an `.ok` value carries the description of
the provider call(s) the command submits.
-/

namespace PlatformCli

/-- A single AWS tag, mirroring the `{"Key": k, "Value": v}` dicts used throughout the CLI. -/
structure Tag where
  key : String
  value : String
deriving DecidableEq

/-- `config.DEFAULT_TAGS["CreatedBy"]`: the sentinel attribution value. -/
def createdByValue : String := "project-cli"

/-- `config.build_tag_list(owner, project, env)`: attribution and owner always; the
Project / Environment pairs are appended only when the corresponding argument is
truthy in Python (`if project:` — present and non-empty). -/
def build_tag_list (owner : String) (project env : Option String) : List Tag :=
  let tags : List Tag := [⟨"CreatedBy", createdByValue⟩, ⟨"Owner", owner⟩]
  let tags := match project with
    | some p => if p ≠ "" then tags ++ [⟨"Project", p⟩] else tags
    | none => tags
  match env with
  | some e => if e ≠ "" then tags ++ [⟨"Environment", e⟩] else tags
  | none => tags

/-- Value of key `k` in the dict built by `{t["Key"]: t["Value"] for t in tags}`:
a later entry overwrites an earlier one, so the last occurrence wins. -/
def tagValue (tags : List Tag) (k : String) : Option String :=
  (tags.reverse.find? (fun t => t.key == k)).map (fun t => t.value)

/-- Provider-side tag filter / `any(...)` tag test: some tag has key `k` and value `v`. -/
def tagMatches (tags : List Tag) (k v : String) : Bool :=
  tags.any (fun t => t.key == k && t.value == v)

/-- The EC2 attribution check used by start/stop/terminate/describe:
`any(t["Key"] == "CreatedBy" and t["Value"] == "project-cli" for t in tags)`. -/
def hasCliTag (tags : List Tag) : Bool :=
  tagMatches tags "CreatedBy" createdByValue

/-- Python `str.upper()` on the ASCII strings the CLI handles: uppercase each
character. -/
def pyUpper (s : String) : String :=
  String.mk (s.data.map Char.toUpper)

/-- Python `str.lower()` on the ASCII strings the CLI handles: lowercase each
character. -/
def pyLower (s : String) : String :=
  String.mk (s.data.map Char.toLower)

/-- One hex digit of `ec2._ID_RE`, whose `re.IGNORECASE` flag admits both cases. -/
def isHexDigitCI (c : Char) : Bool :=
  ('0' ≤ c && c ≤ '9') || ('a' ≤ c && c ≤ 'f') || ('A' ≤ c && c ≤ 'F')

/-- `ec2._ID_RE = ^i-[a-f0-9]{8,}$` (case-insensitive): classifies a token as an
instance identifier; anything else is treated as a Name tag value. -/
def isInstanceIdToken (s : String) : Bool :=
  match s.data with
  | 'i' :: '-' :: rest => decide (rest.length ≥ 8) && rest.all isHexDigitCI
  | _ => false

/-- One EC2 instance as seen through `describe_instances`. -/
structure Ec2Instance where
  instanceId : String
  state : String
  instanceType : String
  tags : List Tag
deriving DecidableEq

/-- `ec2._count_running_cli_instances`: instances passing the provider filters
`tag:CreatedBy = project-cli` and `instance-state-name in [pending, running]`. -/
def _count_running_cli_instances (w : List Ec2Instance) : Nat :=
  (w.filter (fun i => tagMatches i.tags "CreatedBy" createdByValue
      && (i.state == "pending" || i.state == "running"))).length

/-- `ec2._resolve_name_to_ids`: instance ids whose tags match both
`tag:CreatedBy = project-cli` and `tag:Name = name`. -/
def _resolve_name_to_ids (w : List Ec2Instance) (name : String) : List String :=
  (w.filter (fun i => tagMatches i.tags "CreatedBy" createdByValue
      && tagMatches i.tags "Name" name)).map (fun i => i.instanceId)

/-- Python dict assignment `m[k] = v`: overwrite in place if `k` is present
(keeping its position), append otherwise. -/
def dictInsert (m : List (String × List String)) (k : String) (v : List String) :
    List (String × List String) :=
  if m.any (fun p => p.1 == k) then
    m.map (fun p => if p.1 == k then (k, v) else p)
  else m ++ [(k, v)]

/-- The de-dupe loop at the end of `_resolve_tokens_to_instance_ids`: keep each
identifier's first occurrence, skipping anything already in `seen`. -/
def dedupFirst : List String → List String → List String
  | [], _ => []
  | x :: xs, seen => if x ∈ seen then dedupFirst xs seen else x :: dedupFirst xs (x :: seen)

/-- Canonical order-preserving de-duplication: keep the first occurrence of each
element and drop the later ones. -/
def firstOccur : List String → List String
  | [] => []
  | x :: xs => x :: firstOccur (xs.filter (fun y => y ≠ x))
termination_by l => l.length
decreasing_by
  simp only [List.length_cons]
  exact Nat.lt_succ_of_le (List.length_filter_le _ xs)

/-- The body of the name loop in `_resolve_tokens_to_instance_ids`: an unmatched
name goes to `not_found`, a matched one extends the accumulated ids and is stored
in the name map. -/
def resolveStep (w : List Ec2Instance)
    (st : List String × List String × List (String × List String)) (nm : String) :
    List String × List String × List (String × List String) :=
  let m := _resolve_name_to_ids w nm
  if m.isEmpty then (st.1, st.2.1 ++ [nm], st.2.2)
  else (st.1 ++ m, st.2.1, dictInsert st.2.2 nm m)

/-- `ec2._resolve_tokens_to_instance_ids`: split tokens into identifier tokens and
names, resolve each name (collecting a name → ids map and the unmatched names),
then de-duplicate the accumulated identifier list. -/
def _resolve_tokens_to_instance_ids (w : List Ec2Instance) (tokens : List String) :
    List String × List String × List (String × List String) :=
  let idToks := tokens.filter (fun t => isInstanceIdToken t)
  let names := tokens.filter (fun t => !isInstanceIdToken t)
  let st := names.foldl (resolveStep w) (idToks, [], [])
  (dedupFirst st.1 [], st.2.1, st.2.2)

/-- Handled failure categories; every one of them is reported and raised as a
`SystemExit`. `aborted` is click's `Abort` (declined `click.confirm(abort=True)`). -/
inductive CmdErr where
  | usage
  | validation
  | capacity
  | notFound (token : String)
  | ambiguous (token : String) (ids : List String)
  | authorization
  | clientError
  | noneResolved
  | nothingToDo
  | aborted
deriving DecidableEq

/-- Process exit code of each handled failure: click's `Abort` exits 1, every
`raise SystemExit(2)` path exits 2. -/
def exitCode : CmdErr → Nat
  | .aborted => 1
  | _ => 2

/-- `describe_instances(InstanceIds=[id])` for a single id: `none` models the
`ClientError` the provider raises for an unknown identifier. -/
def findInstance (w : List Ec2Instance) (id : String) : Option Ec2Instance :=
  w.find? (fun i => i.instanceId == id)

/-- The shared single-target resolution of start / stop / describe: an identifier
token is taken as-is; a name must resolve to exactly one identifier, with
multiplicity reported as an ambiguity error listing every match. -/
def resolveSingleTarget (w : List Ec2Instance) (token : String) : Except CmdErr String :=
  if isInstanceIdToken token then .ok token
  else
    match _resolve_name_to_ids w token with
    | [] => .error (.notFound token)
    | [id] => .ok id
    | ids => .error (.ambiguous token ids)

/-- State-changing EC2 provider calls a command may issue. -/
inductive Ec2Call where
  | startCall (ids : List String)
  | stopCall (ids : List String) (force : Bool)
  | terminateCall (ids : List String)
deriving DecidableEq

/-- `ec2 start`: resolve to exactly one id, re-read the instance, refuse without
the attribution tag, otherwise issue `start_instances`. -/
def start_instance (w : List Ec2Instance) (token : String) : Except CmdErr Ec2Call :=
  if token = "" then .error .usage
  else
    match resolveSingleTarget w token with
    | .error e => .error e
    | .ok id =>
      match findInstance w id with
      | none => .error .clientError
      | some inst =>
        if hasCliTag inst.tags then .ok (.startCall [id]) else .error .authorization

/-- `ec2 stop`: same shape as start, with the force flag threaded through. -/
def stop_instance (w : List Ec2Instance) (token : String) (force : Bool) :
    Except CmdErr Ec2Call :=
  if token = "" then .error .usage
  else
    match resolveSingleTarget w token with
    | .error e => .error e
    | .ok id =>
      match findInstance w id with
      | none => .error .clientError
      | some inst =>
        if hasCliTag inst.tags then .ok (.stopCall [id] force) else .error .authorization

/-- `ec2 describe` (single-target mode): resolve, re-read, refuse without the tag,
otherwise report the instance (read-only, no mutating call). -/
def describe_instance (w : List Ec2Instance) (token : String) :
    Except CmdErr Ec2Instance :=
  if token = "" then .error .usage
  else
    match resolveSingleTarget w token with
    | .error e => .error e
    | .ok id =>
      match findInstance w id with
      | none => .error .clientError
      | some inst =>
        if hasCliTag inst.tags then .ok inst else .error .authorization

/-- Result of the terminate command: declining the prompt returns without any call
(exit 0); otherwise one batch `terminate_instances` call on the authorized ids. -/
inductive TerminateOutcome where
  | abortedPrompt
  | terminated (ids : List String)
deriving DecidableEq

/-- The terminate confirmation test: `confirm.strip().lower() in {"y", "yes"}`. -/
def confirmYes (s : String) : Bool :=
  pyLower s.trim == "y" || pyLower s.trim == "yes"

/-- The authorization partition of the terminate batch: ids of the re-read
instances that carry the attribution tag, in response order; the untagged ones
are warned about and skipped. -/
def terminateAllowed (w : List Ec2Instance) (resolved : List String) : List String :=
  ((resolved.filterMap (findInstance w)).filter
      (fun i => hasCliTag i.tags)).map (fun i => i.instanceId)

/-- `ec2 terminate`: resolve a mixed token list, fail when nothing resolves,
re-read all resolved ids (a provider error when one is unknown), warn-and-skip
unauthorized members, fail when no authorized member remains, confirm, then issue
one batch terminate call on exactly the authorized ids. -/
def terminate_instances (w : List Ec2Instance) (tokens : List String)
    (yes : Bool) (confirmInput : String) : Except CmdErr TerminateOutcome :=
  if tokens.isEmpty then .error .usage
  else
    let r := _resolve_tokens_to_instance_ids w tokens
    if r.1.isEmpty then .error .noneResolved
    else if r.1.all (fun id => (findInstance w id).isSome) then
      if (terminateAllowed w r.1).isEmpty then .error .nothingToDo
      else if !yes && !confirmYes confirmInput then .ok .abortedPrompt
      else .ok (.terminated (terminateAllowed w r.1))
    else .error .clientError

/-- `ec2 create`'s allow-list `ALLOWED_INSTANCE_TYPES = {"t3.micro", "t2.small"}`. -/
def ALLOWED_INSTANCE_TYPES : List String := ["t3.micro", "t2.small"]

/-- The `click.Choice` list for the OS positional argument. -/
def osChoices : List String := ["amazon-linux", "ubuntu"]

/-- `click.Choice(..., case_sensitive=False)` on an optional positional: an absent
argument passes through; a provided token must match a choice ignoring case and is
normalized to the casing of the choice list, otherwise click exits with code 2. -/
def parseChoice (choices : List String) : Option String → Except CmdErr (Option String)
  | none => .ok none
  | some t =>
    match choices.find? (fun c => pyLower c == pyLower t) with
    | some c => .ok (some c)
    | none => .error .usage

/-- The single `run_instances` call issued by `ec2 create`. -/
structure RunInstanceCall where
  imageId : String
  instanceType : String
  tags : List Tag
deriving DecidableEq

/-- `ec2 create` in non-interactive (`--no-prompt`) form: click choice parsing,
missing-argument check, allow-list check, hard-cap check against the live count,
AMI resolution (`none` models every SSM probe failing), name defaulting, then
exactly one `run_instances` call carrying the standard tags plus the Name tag. -/
def create_instance (w : List Ec2Instance) (ami : Option String)
    (osArg instanceTypeArg : Option String) (owner : String)
    (project env : Option String) (nameOpt : Option String) :
    Except CmdErr RunInstanceCall :=
  match parseChoice osChoices osArg with
  | .error e => .error e
  | .ok osV =>
    match parseChoice ALLOWED_INSTANCE_TYPES instanceTypeArg with
    | .error e => .error e
    | .ok itV =>
      match osV, itV with
      | some _, some instanceType =>
        if !ALLOWED_INSTANCE_TYPES.contains instanceType then .error .validation
        else if _count_running_cli_instances w ≥ 2 then .error .capacity
        else
          match ami with
          | none => .error .clientError
          | some amiId =>
            let projPart := match project with
              | some p => if p ≠ "" then p else "cli"
              | none => "cli"
            let defaultName := owner ++ "-" ++ projPart ++ "-" ++ instanceType
            let finalName := match nameOpt with
              | some n => if n ≠ "" then n.trim else defaultName
              | none => defaultName
            .ok { imageId := amiId, instanceType := instanceType,
                  tags := build_tag_list owner project env ++ [⟨"Name", finalName⟩] }
      | _, _ => .error .usage

/-- One S3 bucket; `tagsRead = none` models `get_bucket_tagging` raising a
`ClientError` (missing bucket, no tag set, or access denied). -/
structure Bucket where
  name : String
  tagsRead : Option (List Tag)
deriving DecidableEq

/-- The tag set `s3._bucket_has_cli_tag` manages to read for a bucket name. -/
def lookupBucketTags (w : List Bucket) (name : String) : Option (List Tag) :=
  (w.find? (fun b => b.name == name)).bind (fun b => b.tagsRead)

/-- `s3._bucket_has_cli_tag`: `tagset.get("CreatedBy") == "project-cli"`, returning
`False` whenever the tag read raises a `ClientError`. -/
def _bucket_has_cli_tag (w : List Bucket) (name : String) : Bool :=
  match lookupBucketTags w name with
  | none => false
  | some tags => tagValue tags "CreatedBy" == some createdByValue

/-- `os.path.basename` for the forward-slash paths the CLI deals in. -/
def basename (p : String) : String :=
  ((p.splitOn "/").getLast?).getD ""

/-- State-changing S3 provider calls a command may issue. -/
inductive S3Call where
  | uploadCall (bucket : String) (key : String)
  | purgeVersions (bucket : String)
  | purgeObjects (bucket : String)
  | deleteBucketCall (bucket : String)
deriving DecidableEq

/-- `s3 upload`: argument check, attribution check on the bucket, then one
`upload_file` call; `object_key = key or os.path.basename(filepath)`. -/
def upload_object (w : List Bucket) (bucket filepath : String) (key : Option String) :
    Except CmdErr S3Call :=
  if bucket = "" || filepath = "" then .error .usage
  else if !_bucket_has_cli_tag w bucket then .error .authorization
  else
    let objectKey := match key with
      | some k => if k ≠ "" then k else basename filepath
      | none => basename filepath
    .ok (.uploadCall bucket objectKey)

/-- `s3 delete`: attribution check, confirmation (`click.confirm(abort=True)`),
optional purge (versions, falling back to plain objects on an unversioned bucket),
then the `delete_bucket` call. -/
def delete_bucket (w : List Bucket) (bucket : String) (force yes confirmAnswer : Bool)
    (versioned : Bool) : Except CmdErr (List S3Call) :=
  if bucket = "" then .error .usage
  else if !_bucket_has_cli_tag w bucket then .error .authorization
  else if !yes && !confirmAnswer then .error .aborted
  else
    let purge := if force then
        [if versioned then S3Call.purgeVersions bucket else S3Call.purgeObjects bucket]
      else []
    .ok (purge ++ [S3Call.deleteBucketCall bucket])

/-- One hosted zone; `tagsRead = none` models `list_tags_for_resource` raising a
`ClientError`. -/
structure Zone where
  zoneId : String
  tagsRead : Option (List Tag)
deriving DecidableEq

/-- The tag set `route53._zone_is_cli_owned` manages to read for a zone id. -/
def lookupZoneTags (w : List Zone) (zoneId : String) : Option (List Tag) :=
  (w.find? (fun z => z.zoneId == zoneId)).bind (fun z => z.tagsRead)

/-- `route53._zone_is_cli_owned`: `tags.get("CreatedBy") == "project-cli"`,
returning `False` whenever the tag read raises a `ClientError`. -/
def _zone_is_cli_owned (w : List Zone) (zoneId : String) : Bool :=
  match lookupZoneTags w zoneId with
  | none => false
  | some tags => tagValue tags "CreatedBy" == some createdByValue

/-- A hexadecimal digit in the lowercase alphabet `json.dumps` uses. -/
def hexDigit (n : Nat) : Char :=
  if n < 10 then Char.ofNat (48 + n) else Char.ofNat (87 + n)

/-- Four lowercase hex digits, as in CPython's `'\\u%04x'` formatting. -/
def hex4 (n : Nat) : String :=
  String.mk [hexDigit (n / 4096 % 16), hexDigit (n / 256 % 16),
             hexDigit (n / 16 % 16), hexDigit (n % 16)]

/-- The `\\uXXXX` escape `json.dumps` emits with `ensure_ascii=True`; code points
beyond the BMP become a UTF-16 surrogate pair. -/
def uEscape (n : Nat) : String :=
  if n < 65536 then "\\u" ++ hex4 n
  else
    let m := n - 65536
    "\\u" ++ hex4 (55296 + m / 1024) ++ "\\u" ++ hex4 (56320 + m % 1024)

/-- Per-character escaping of CPython's default (`ensure_ascii=True`) JSON string
encoder: short escapes for quote, backslash and the usual control characters,
`\\uXXXX` for other controls and for everything outside printable ASCII. -/
def jsonEscapeChar (c : Char) : String :=
  if c = '"' then "\\\""
  else if c = '\\' then "\\\\"
  else if c = '\n' then "\\n"
  else if c = '\r' then "\\r"
  else if c = '\t' then "\\t"
  else if c.toNat = 8 then "\\b"
  else if c.toNat = 12 then "\\f"
  else if c.toNat < 32 || c.toNat ≥ 127 then uEscape c.toNat
  else String.singleton c

/-- Concatenation of the per-character escapes of a character list. -/
def jsonEscapeList : List Char → String
  | [] => ""
  | c :: cs => jsonEscapeChar c ++ jsonEscapeList cs

/-- `json.dumps` applied to a Python string: the escaped characters wrapped in
double quotes. -/
def jsonDumpsString (s : String) : String :=
  "\"" ++ jsonEscapeList s.data ++ "\""

/-- A character the JSON encoder leaves alone: printable ASCII other than the
quote and the backslash. -/
def plainTextChar (c : Char) : Bool :=
  (32 ≤ c.toNat && c.toNat < 127) && !(c == '"') && !(c == '\\')

/-- Record-name normalization shared by the record commands: append a trailing dot
when absent (`name.endswith(".")` for the one-character suffix is a last-character
test). -/
def normalizeRecordName (name : String) : String :=
  if (match name.data.getLast? with | some c => c == '.' | none => false) then name
  else name ++ "."

/-- The already-quoted test `value.startswith('"') and value.endswith('"')`: for a
one-character affix these are first- and last-character tests (false on ""). -/
def valueIsQuoted (value : String) : Bool :=
  (match value.data.head? with | some c => c == '"' | none => false)
    && (match value.data.getLast? with | some c => c == '"' | none => false)

/-- Record-value normalization shared by create-record / update-record /
delete-record: a TXT value that is not already quoted goes through `json.dumps`;
everything else passes through unchanged. -/
def normalizeRecordValue (rtype value : String) : String :=
  if pyUpper rtype == "TXT" then
    if valueIsQuoted value then value else jsonDumpsString value
  else value

/-- The `ResourceRecordSet` submitted in a change batch. -/
structure RecordSetSpec where
  name : String
  rtype : String
  ttl : Int
  value : String
deriving DecidableEq

/-- One member of the `ChangeBatch` submitted to `change_resource_record_sets`. -/
structure RecordChange where
  action : String
  comment : String
  recordSet : RecordSetSpec
deriving DecidableEq

/-- The `click.Choice` list for the record-type positional argument. -/
def rtypeChoices : List String := ["A", "AAAA", "CNAME", "TXT"]

/-- `route53 create-record`: click choice check on the type, missing-argument
check, zone attribution check, normalization, then one UPSERT change batch. -/
def create_record (w : List Zone) (zoneId name rtype value : String) (ttl : Int) :
    Except CmdErr RecordChange :=
  if !rtypeChoices.contains (pyUpper rtype) then .error .usage
  else if zoneId = "" || name = "" || value = "" then .error .usage
  else if !_zone_is_cli_owned w zoneId then .error .authorization
  else
    .ok { action := "UPSERT", comment := "project-cli create-record",
          recordSet := { name := normalizeRecordName name, rtype := pyUpper rtype,
                         ttl := ttl, value := normalizeRecordValue rtype value } }

/-- `route53 update-record`: identical pipeline to create-record apart from the
batch comment and the success message. -/
def update_record (w : List Zone) (zoneId name rtype value : String) (ttl : Int) :
    Except CmdErr RecordChange :=
  if !rtypeChoices.contains (pyUpper rtype) then .error .usage
  else if zoneId = "" || name = "" || value = "" then .error .usage
  else if !_zone_is_cli_owned w zoneId then .error .authorization
  else
    .ok { action := "UPSERT", comment := "project-cli update-record",
          recordSet := { name := normalizeRecordName name, rtype := pyUpper rtype,
                         ttl := ttl, value := normalizeRecordValue rtype value } }

/-- `route53 delete-record`: same guards and normalization, a confirmation before
the call, then one DELETE change batch with the exact record tuple. -/
def delete_record (w : List Zone) (zoneId name rtype value : String) (ttl : Int)
    (yes confirmAnswer : Bool) : Except CmdErr RecordChange :=
  if !rtypeChoices.contains (pyUpper rtype) then .error .usage
  else if zoneId = "" || name = "" || value = "" then .error .usage
  else if !_zone_is_cli_owned w zoneId then .error .authorization
  else if !yes && !confirmAnswer then .error .aborted
  else
    .ok { action := "DELETE", comment := "project-cli delete-record",
          recordSet := { name := normalizeRecordName name, rtype := pyUpper rtype,
                         ttl := ttl, value := normalizeRecordValue rtype value } }

/-- `route53 list-records`: zone attribution gate before the (read-only)
enumeration. -/
def list_records (w : List Zone) (zoneId : String) : Except CmdErr Unit :=
  if zoneId = "" then .error .usage
  else if !_zone_is_cli_owned w zoneId then .error .authorization
  else .ok ()

/-- Key test for the upsert: the provider keys record sets on (name, type). -/
def recordKeyMatches (r : RecordSetSpec) (name rtype : String) : Bool :=
  r.name == name && r.rtype == rtype

/-- Modelled from the spec: the provider-side semantics of one submitted change —
UPSERT is replace-if-exists / create-if-absent keyed on (name, type); DELETE
removes the record set matching the exact tuple.  (The provider executing the
change batch is external to the repository.) -/
def applyChange (recs : List RecordSetSpec) (c : RecordChange) : List RecordSetSpec :=
  if c.action == "UPSERT" then
    if recs.any (fun r => recordKeyMatches r c.recordSet.name c.recordSet.rtype) then
      recs.map (fun r =>
        if recordKeyMatches r c.recordSet.name c.recordSet.rtype then c.recordSet else r)
    else recs ++ [c.recordSet]
  else
    recs.filter (fun r => !(r == c.recordSet))

/-- The parts of a change batch that determine the resulting record state:
everything except the free-text comment. -/
def changeIgnoringComment (c : RecordChange) : String × RecordSetSpec :=
  (c.action, c.recordSet)

/-- The cross-service world the status command reads. -/
structure CloudState where
  instances : List Ec2Instance
  buckets : List Bucket
  zones : List Zone
deriving DecidableEq

/-- The EC2 owner filter in `status`: appended only when `--owner` is truthy, and
implemented as the provider-side `tag:Owner` filter. -/
def ownerFilterEc2 (tags : List Tag) (owner : Option String) : Bool :=
  match owner with
  | none => true
  | some o => if o ≠ "" then tagMatches tags "Owner" o else true

/-- The dict-based owner filter in `status` for buckets and zones:
`if owner and tags.get("Owner") != owner: continue`. -/
def ownerFilterDict (tags : List Tag) (owner : Option String) : Bool :=
  match owner with
  | none => true
  | some o => if o ≠ "" then tagValue tags "Owner" == some o else true

/-- An instance reaches the status counting loop when it passes the provider
filters (attribution tag, plus owner when given). -/
def statusEc2Counted (i : Ec2Instance) (owner : Option String) : Bool :=
  tagMatches i.tags "CreatedBy" createdByValue && ownerFilterEc2 i.tags owner

/-- A bucket is counted when its tags could be read (a failed read is skipped by
`continue`), carry the attribution value, and pass the owner filter. -/
def statusBucketCounted (b : Bucket) (owner : Option String) : Bool :=
  match b.tagsRead with
  | none => false
  | some tags =>
      tagValue tags "CreatedBy" == some createdByValue && ownerFilterDict tags owner

/-- A zone is counted when its tags could be read, carry the attribution value,
and pass the owner filter. -/
def statusZoneCounted (z : Zone) (owner : Option String) : Bool :=
  match z.tagsRead with
  | none => false
  | some tags =>
      tagValue tags "CreatedBy" == some createdByValue && ownerFilterDict tags owner

/-- The numbers the status report prints, together with the final
`Active resources present` boolean. -/
structure StatusReport where
  running : Nat
  pending : Nat
  stopped : Nat
  other : Nat
  bucketCount : Nat
  zoneCount : Nat
  active : Bool
deriving DecidableEq

/-- `cli.status` (counting part): per-state instance counts over the filtered
instances, bucket and zone counts, and
`active = ((running + pending) > 0) or (buckets > 0) or (zones > 0)`. -/
def status (w : CloudState) (owner : Option String) : StatusReport :=
  let insts := w.instances.filter (fun i => statusEc2Counted i owner)
  let running := (insts.filter (fun i => i.state == "running")).length
  let pending := (insts.filter (fun i => i.state == "pending")).length
  let stopped := (insts.filter (fun i => i.state == "stopped")).length
  let other := (insts.filter (fun i =>
      !(i.state == "running") && !(i.state == "pending") && !(i.state == "stopped"))).length
  let bucketCount := (w.buckets.filter (fun b => statusBucketCounted b owner)).length
  let zoneCount := (w.zones.filter (fun z => statusZoneCounted z owner)).length
  { running := running, pending := pending, stopped := stopped, other := other,
    bucketCount := bucketCount, zoneCount := zoneCount,
    active := decide (running + pending > 0) || decide (bucketCount > 0)
      || decide (zoneCount > 0) }

/-! ### Helper lemmas -/

theorem jsonEscapeChar_plain (c : Char) (h : plainTextChar c = true) :
    jsonEscapeChar c = String.singleton c := by
  simp only [plainTextChar, Bool.and_eq_true, Bool.not_eq_true', beq_eq_false_iff_ne,
    decide_eq_true_eq] at h
  obtain ⟨⟨⟨h1, h2⟩, h3⟩, h4⟩ := h
  have hn : c ≠ '\n' := by intro hc; subst hc; exact absurd h1 (by decide)
  have hr : c ≠ '\r' := by intro hc; subst hc; exact absurd h1 (by decide)
  have ht : c ≠ '\t' := by intro hc; subst hc; exact absurd h1 (by decide)
  have hb : ¬(c.toNat = 8) := by omega
  have hf : ¬(c.toNat = 12) := by omega
  have hlo : ¬(c.toNat < 32) := by omega
  have hhi : ¬(c.toNat ≥ 127) := by omega
  simp [jsonEscapeChar, h3, h4, hn, hr, ht, hb, hf, hlo, hhi]

theorem jsonEscapeList_plain (l : List Char) (h : l.all plainTextChar = true) :
    jsonEscapeList l = String.mk l := by
  induction l with
  | nil => rfl
  | cons c cs ih =>
    simp only [List.all_cons, Bool.and_eq_true] at h
    rw [jsonEscapeList, jsonEscapeChar_plain c h.1, ih h.2]
    show String.mk ([c] ++ cs) = String.mk (c :: cs)
    rfl

theorem jsonDumps_plain (s : String) (h : s.data.all plainTextChar = true) :
    jsonDumpsString s = "\"" ++ s ++ "\"" := by
  rw [jsonDumpsString, jsonEscapeList_plain _ h]

theorem mem_dedupFirst (x : String) (xs : List String) : ∀ seen,
    x ∈ dedupFirst xs seen ↔ x ∈ xs ∧ x ∉ seen := by
  induction xs with
  | nil => intro seen; simp [dedupFirst]
  | cons y xs ih =>
    intro seen
    rw [dedupFirst]
    by_cases hy : y ∈ seen
    · rw [if_pos hy, ih seen]
      constructor
      · rintro ⟨h1, h2⟩
        exact ⟨List.mem_cons_of_mem _ h1, h2⟩
      · rintro ⟨h1, h2⟩
        rcases List.mem_cons.mp h1 with rfl | h1
        · exact absurd hy h2
        · exact ⟨h1, h2⟩
    · rw [if_neg hy]
      rw [List.mem_cons, ih (y :: seen)]
      simp only [List.mem_cons, not_or]
      constructor
      · rintro (rfl | ⟨h1, h2, h3⟩)
        · exact ⟨Or.inl rfl, hy⟩
        · exact ⟨Or.inr h1, h3⟩
      · rintro ⟨rfl | h1, h2⟩
        · exact Or.inl rfl
        · by_cases hxy : x = y
          · exact Or.inl hxy
          · exact Or.inr ⟨h1, hxy, h2⟩

theorem dedupFirst_sublist (xs : List String) : ∀ seen, (dedupFirst xs seen).Sublist xs := by
  induction xs with
  | nil => intro seen; simp [dedupFirst]
  | cons y xs ih =>
    intro seen
    rw [dedupFirst]
    by_cases hy : y ∈ seen
    · rw [if_pos hy]
      exact (ih seen).trans (List.sublist_cons_self y xs)
    · rw [if_neg hy]
      exact (ih (y :: seen)).cons₂ y

theorem dedupFirst_nodup (xs : List String) : ∀ seen, (dedupFirst xs seen).Nodup := by
  induction xs with
  | nil => intro seen; simp [dedupFirst]
  | cons y xs ih =>
    intro seen
    rw [dedupFirst]
    by_cases hy : y ∈ seen
    · rw [if_pos hy]; exact ih seen
    · rw [if_neg hy]
      refine List.nodup_cons.mpr ⟨?_, ih (y :: seen)⟩
      intro hmem
      rw [mem_dedupFirst] at hmem
      exact hmem.2 (List.mem_cons_self y seen)

theorem dedupFirst_eq_firstOccur (xs : List String) : ∀ seen,
    dedupFirst xs seen = firstOccur (xs.filter (fun y => decide (y ∉ seen))) := by
  induction xs with
  | nil => intro seen; simp [dedupFirst, firstOccur]
  | cons y xs ih =>
    intro seen
    rw [dedupFirst]
    by_cases hy : y ∈ seen
    · rw [if_pos hy, List.filter_cons_of_neg (by simpa using hy), ih seen]
    · rw [if_neg hy, List.filter_cons_of_pos (by simpa using hy), firstOccur, ih (y :: seen)]
      congr 1
      rw [List.filter_filter]
      congr 1
      apply List.filter_congr
      intro a _
      by_cases hay : a = y <;> by_cases has : a ∈ seen <;>
        simp [hay, has, List.mem_cons]

theorem length_pos_filter_iff {α : Type} (l : List α) (p : α → Bool) :
    0 < (l.filter p).length ↔ ∃ x ∈ l, p x = true := by
  rw [List.length_pos]
  constructor
  · intro h
    rcases List.exists_mem_of_ne_nil _ h with ⟨x, hx⟩
    rw [List.mem_filter] at hx
    exact ⟨x, hx.1, hx.2⟩
  · rintro ⟨x, hx, hp⟩
    intro hnil
    have := List.filter_eq_nil_iff.mp hnil x hx
    simp [hp] at this

theorem mem_dictInsert_self (m : List (String × List String)) (k : String)
    (v : List String) : (k, v) ∈ dictInsert m k v := by
  unfold dictInsert
  by_cases h : m.any (fun p => p.1 == k)
  · rw [if_pos h]
    rcases List.any_eq_true.mp h with ⟨q, hq, hqk⟩
    rw [beq_iff_eq] at hqk
    refine List.mem_map.mpr ⟨q, hq, ?_⟩
    rw [if_pos (by simpa using hqk)]
  · rw [if_neg h]
    exact List.mem_append_right _ (List.mem_singleton.mpr rfl)

theorem mem_dictInsert_of_mem (m : List (String × List String)) (k : String)
    (v : List String) (p : String × List String) (hp : p ∈ m) (hk : p.1 ≠ k) :
    p ∈ dictInsert m k v := by
  unfold dictInsert
  by_cases h : m.any (fun q => q.1 == k)
  · rw [if_pos h]
    refine List.mem_map.mpr ⟨p, hp, ?_⟩
    rw [if_neg (by simpa using hk)]
  · rw [if_neg h]
    exact List.mem_append_left _ hp

theorem mem_dictInsert_elim (m : List (String × List String)) (k : String)
    (v : List String) (p : String × List String) (hp : p ∈ dictInsert m k v) :
    p ∈ m ∨ p = (k, v) := by
  unfold dictInsert at hp
  by_cases h : m.any (fun q => q.1 == k)
  · rw [if_pos h] at hp
    rcases List.mem_map.mp hp with ⟨q, hq, hqp⟩
    by_cases hqk : q.1 == k
    · rw [if_pos hqk] at hqp
      exact Or.inr hqp.symm
    · rw [if_neg hqk] at hqp
      exact Or.inl (hqp ▸ hq)
  · rw [if_neg h] at hp
    rcases List.mem_append.mp hp with hp | hp
    · exact Or.inl hp
    · exact Or.inr (List.mem_singleton.mp hp)

theorem resolveFold_fst (w : List Ec2Instance) (names : List String) :
    ∀ st, (names.foldl (resolveStep w) st).1
      = st.1 ++ (names.map (fun nm => _resolve_name_to_ids w nm)).flatten := by
  induction names with
  | nil => intro st; simp
  | cons nm names ih =>
    intro st
    rw [List.foldl_cons, ih]
    unfold resolveStep
    by_cases hm : (_resolve_name_to_ids w nm).isEmpty
    · rw [if_pos hm]
      simp [List.isEmpty_iff.mp hm]
    · rw [if_neg hm]
      simp [List.append_assoc]

theorem resolveFold_notfound (w : List Ec2Instance) (names : List String) :
    ∀ st, (names.foldl (resolveStep w) st).2.1
      = st.2.1 ++ names.filter (fun nm => (_resolve_name_to_ids w nm).isEmpty) := by
  induction names with
  | nil => intro st; simp
  | cons nm names ih =>
    intro st
    rw [List.foldl_cons, ih]
    unfold resolveStep
    by_cases hm : (_resolve_name_to_ids w nm).isEmpty
    · rw [if_pos hm]
      simp [List.filter_cons, hm, List.append_assoc]
    · rw [if_neg hm]
      simp only [Bool.not_eq_true] at hm
      simp [List.filter_cons, hm]

theorem resolveFold_map_sound (w : List Ec2Instance) (names : List String) :
    ∀ st, (∀ p ∈ st.2.2, p.2 = _resolve_name_to_ids w p.1 ∧ p.2 ≠ []) →
      ∀ p ∈ (names.foldl (resolveStep w) st).2.2,
        p.2 = _resolve_name_to_ids w p.1 ∧ p.2 ≠ [] := by
  induction names with
  | nil => intro st h; exact h
  | cons nm names ih =>
    intro st h
    rw [List.foldl_cons]
    apply ih
    unfold resolveStep
    by_cases hm : (_resolve_name_to_ids w nm).isEmpty
    · rw [if_pos hm]; exact h
    · rw [if_neg hm]
      intro p hp
      rcases mem_dictInsert_elim _ _ _ p hp with hp | rfl
      · exact h p hp
      · exact ⟨rfl, by simpa [List.isEmpty_iff] using hm⟩

theorem resolveFold_map_complete (w : List Ec2Instance) (names : List String) :
    ∀ st nm, ((nm, _resolve_name_to_ids w nm) ∈ st.2.2
        ∨ (nm ∈ names ∧ (_resolve_name_to_ids w nm).isEmpty = false)) →
      (nm, _resolve_name_to_ids w nm) ∈ (names.foldl (resolveStep w) st).2.2 := by
  induction names with
  | nil =>
    intro st nm h
    rcases h with h | ⟨h, _⟩
    · exact h
    · exact absurd h (List.not_mem_nil nm)
  | cons nm' names ih =>
    intro st nm h
    rw [List.foldl_cons]
    apply ih
    unfold resolveStep
    by_cases hm : (_resolve_name_to_ids w nm').isEmpty
    · rw [if_pos hm]
      rcases h with h | ⟨h, hne⟩
      · exact Or.inl h
      · rcases List.mem_cons.mp h with rfl | h
        · rw [hm] at hne; cases hne
        · exact Or.inr ⟨h, hne⟩
    · rw [if_neg hm]
      rcases h with h | ⟨h, hne⟩
      · left
        by_cases hk : nm = nm'
        · subst hk
          exact mem_dictInsert_self _ _ _
        · exact mem_dictInsert_of_mem _ _ _ _ h hk
      · rcases List.mem_cons.mp h with rfl | h
        · exact Or.inl (mem_dictInsert_self _ _ _)
        · exact Or.inr ⟨h, hne⟩

theorem findInstance_instanceId (w : List Ec2Instance) (id : String)
    (inst : Ec2Instance) (h : findInstance w id = some inst) :
    inst.instanceId = id ∧ inst ∈ w := by
  have h1 := List.find?_some h
  have h2 := List.mem_of_find?_eq_some h
  exact ⟨by simpa using h1, h2⟩

theorem findInstance_eq_of_nodup (w : List Ec2Instance)
    (hnd : (w.map (fun i => i.instanceId)).Nodup)
    (inst : Ec2Instance) (hmem : inst ∈ w) :
    findInstance w inst.instanceId = some inst := by
  have hsome : (findInstance w inst.instanceId).isSome := by
    rw [findInstance, List.find?_isSome]
    exact ⟨inst, hmem, by simp⟩
  rcases Option.isSome_iff_exists.mp hsome with ⟨j, hj⟩
  obtain ⟨hjid, hjmem⟩ := findInstance_instanceId w _ j hj
  have : j = inst := List.inj_on_of_nodup_map hnd hjmem hmem hjid
  rw [hj, this]

theorem mem_terminateAllowed_elim (w : List Ec2Instance) (resolved : List String)
    (id : String) (h : id ∈ terminateAllowed w resolved) :
    ∃ inst, findInstance w id = some inst ∧ hasCliTag inst.tags = true := by
  rcases List.mem_map.mp h with ⟨inst, hmem, hid⟩
  rcases List.mem_filter.mp hmem with ⟨hfm, htag⟩
  rcases List.mem_filterMap.mp hfm with ⟨id₀, _, hfind⟩
  obtain ⟨hiid, _⟩ := findInstance_instanceId w id₀ inst hfind
  exact ⟨inst, by rw [← hid, hiid]; exact hfind, htag⟩

theorem mem_terminateAllowed_intro (w : List Ec2Instance) (resolved : List String)
    (id : String) (inst : Ec2Instance) (hres : id ∈ resolved)
    (hfind : findInstance w id = some inst) (htag : hasCliTag inst.tags = true) :
    id ∈ terminateAllowed w resolved := by
  obtain ⟨hiid, _⟩ := findInstance_instanceId w id inst hfind
  refine List.mem_map.mpr ⟨inst, List.mem_filter.mpr ⟨?_, htag⟩, hiid⟩
  exact List.mem_filterMap.mpr ⟨id, hres, hfind⟩

theorem parseChoice_error (choices : List String) (x : Option String) (e : CmdErr)
    (h : parseChoice choices x = .error e) : e = .usage := by
  cases x with
  | none => simp [parseChoice] at h
  | some t =>
    simp only [parseChoice] at h
    cases hf : choices.find? (fun c => pyLower c == pyLower t) with
    | none =>
      rw [hf] at h
      injection h with h
      exact h.symm
    | some c =>
      rw [hf] at h
      exact Except.noConfusion h

theorem resolve_name_mem (w : List Ec2Instance) (name id : String)
    (h : id ∈ _resolve_name_to_ids w name) :
    ∃ inst ∈ w, inst.instanceId = id ∧ hasCliTag inst.tags = true := by
  unfold _resolve_name_to_ids at h
  rcases List.mem_map.mp h with ⟨inst, hmem, hid⟩
  rcases List.mem_filter.mp hmem with ⟨hw, hf⟩
  rw [Bool.and_eq_true] at hf
  exact ⟨inst, hw, hid, hf.1⟩

theorem mem_build_tag_list (owner : String) (project env : Option String) (t : Tag) :
    t ∈ build_tag_list owner project env ↔
      (t = ⟨"CreatedBy", "project-cli"⟩ ∨ t = ⟨"Owner", owner⟩
      ∨ (∃ p, project = some p ∧ p ≠ "" ∧ t = ⟨"Project", p⟩)
      ∨ (∃ e, env = some e ∧ e ≠ "" ∧ t = ⟨"Environment", e⟩)) := by
  rcases project with _ | p₀ <;> rcases env with _ | e₀
  · simp [build_tag_list, createdByValue]
  · by_cases he : e₀ = "" <;> simp [build_tag_list, createdByValue, he]
  · by_cases hp : p₀ = "" <;> simp [build_tag_list, createdByValue, hp]
  · by_cases hp : p₀ = "" <;> by_cases he : e₀ = "" <;>
      simp [build_tag_list, createdByValue, hp, he]

/-! ### Claim theorems -/

/-- C3 (counterexample): the size-class token "T3.MICRO" is not a member of the
allow-list `{t3.micro, t2.small}`, yet `create` accepts it — `click.Choice` with
`case_sensitive=False` matches it to "t3.micro" — and proceeds all the way to the
`run_instances` call instead of failing with a validation error. -/
theorem C3_counterexample :
    "T3.MICRO" ∉ ALLOWED_INSTANCE_TYPES
    ∧ create_instance [] (some "ami-123") (some "ubuntu") (some "T3.MICRO")
        "alice" none none none
      = .ok { imageId := "ami-123", instanceType := "t3.micro",
              tags := [⟨"CreatedBy", "project-cli"⟩, ⟨"Owner", "alice"⟩,
                       ⟨"Name", "alice-cli-t3.micro"⟩] } :=
  ⟨by decide, by rfl⟩

/-- C3 (amended): for every size-class token whose lowercase form is not in the
allow-list, `create` fails at argument parsing with exit code 2 and issues no
`run_instances` call; membership in the allow-list is tested case-insensitively. -/
theorem C3_size_allowlist (w : List Ec2Instance) (ami : Option String)
    (osArg : Option String) (size : String) (owner : String)
    (project env nameOpt : Option String)
    (h : pyLower size ∉ ALLOWED_INSTANCE_TYPES) :
    create_instance w ami osArg (some size) owner project env nameOpt = .error .usage
    ∧ exitCode .usage = 2 := by
  refine ⟨?_, rfl⟩
  have h1 : pyLower size ≠ "t3.micro" := by
    intro hx; exact h (hx ▸ List.mem_cons_self _ _)
  have h2 : pyLower size ≠ "t2.small" := by
    intro hx; exact h (hx ▸ List.mem_cons_of_mem _ (List.mem_cons_self _ _))
  have hfind : ALLOWED_INSTANCE_TYPES.find? (fun c => pyLower c == pyLower size)
      = none := by
    rw [List.find?_eq_none]
    intro c hc
    fin_cases hc <;> simp [beq_iff_eq] <;> [exact fun hx => h1 hx.symm;
      exact fun hx => h2 hx.symm]
  have hsize : parseChoice ALLOWED_INSTANCE_TYPES (some size) = .error .usage := by
    simp [parseChoice, hfind]
  unfold create_instance
  cases hos : parseChoice osChoices osArg with
  | error e => simp [parseChoice_error _ _ _ hos]
  | ok osV => simp [hsize]

/-- C3 witness: a concrete disallowed size class is rejected with a usage error. -/
theorem C3_witness :
    pyLower "T9.LARGE" ∉ ALLOWED_INSTANCE_TYPES
    ∧ create_instance [] none (some "ubuntu") (some "T9.LARGE") "alice" none none none
        = .error .usage :=
  ⟨by decide,
   (C3_size_allowlist [] none (some "ubuntu") "T9.LARGE" "alice" none none none
      (by decide)).1⟩

/-- C2: with a valid OS and size class, whenever the observed count of
attribution-tagged running/pending instances is at least 2, `create` fails with
the capacity error (exit code 2) before any AMI probe, key handling or
`run_instances` call. -/
theorem C2_capacity_guard (w : List Ec2Instance) (ami : Option String)
    (os size : String) (owner : String) (project env nameOpt : Option String)
    (hos : os ∈ osChoices) (hsize : size ∈ ALLOWED_INSTANCE_TYPES)
    (hcap : 2 ≤ _count_running_cli_instances w) :
    create_instance w ami (some os) (some size) owner project env nameOpt
      = .error .capacity ∧ exitCode .capacity = 2 := by
  refine ⟨?_, rfl⟩
  obtain ⟨c1, hc1⟩ : ∃ c, osChoices.find? (fun c => pyLower c == pyLower os)
      = some c := by
    have hs : (osChoices.find? (fun c => pyLower c == pyLower os)).isSome := by
      rw [List.find?_isSome]
      exact ⟨os, hos, by simp⟩
    exact Option.isSome_iff_exists.mp hs
  obtain ⟨c2, hc2⟩ : ∃ c, ALLOWED_INSTANCE_TYPES.find?
      (fun c => pyLower c == pyLower size) = some c := by
    have hs : (ALLOWED_INSTANCE_TYPES.find? (fun c => pyLower c == pyLower size)).isSome := by
      rw [List.find?_isSome]
      exact ⟨size, hsize, by simp⟩
    exact Option.isSome_iff_exists.mp hs
  have hc2mem : c2 ∈ ALLOWED_INSTANCE_TYPES := List.mem_of_find?_eq_some hc2
  have hcontains : ALLOWED_INSTANCE_TYPES.contains c2 = true := by
    fin_cases hc2mem <;> decide
  unfold create_instance
  simp [parseChoice, hc1, hc2, hcontains, hc2mem, hcap]

/-- C2 witness: with two running attribution-tagged instances, a valid create
invocation fails with the capacity error. -/
theorem C2_witness :
    2 ≤ _count_running_cli_instances
        [⟨"i-aaaaaaa1", "running", "t3.micro", [⟨"CreatedBy", "project-cli"⟩]⟩,
         ⟨"i-aaaaaaa2", "running", "t2.small", [⟨"CreatedBy", "project-cli"⟩]⟩]
    ∧ create_instance
        [⟨"i-aaaaaaa1", "running", "t3.micro", [⟨"CreatedBy", "project-cli"⟩]⟩,
         ⟨"i-aaaaaaa2", "running", "t2.small", [⟨"CreatedBy", "project-cli"⟩]⟩]
        (some "ami-1") (some "ubuntu") (some "t3.micro") "alice" none none none
      = .error .capacity :=
  ⟨by decide,
   (C2_capacity_guard _ (some "ami-1") "ubuntu" "t3.micro" "alice" none none none
      (by decide) (by decide) (by decide)).1⟩

/-- C5 (counterexample): for the TXT value `a\b` (one backslash, not quoted), the
submitted value is the JSON encoding `"a\\b"`, which differs from the input merely
wrapped in quotes (`"a\b"`). -/
theorem C5_counterexample :
    pyUpper "TXT" = "TXT"
    ∧ valueIsQuoted "a\\b" = false
    ∧ normalizeRecordValue "TXT" "a\\b" = "\"a\\\\b\""
    ∧ normalizeRecordValue "TXT" "a\\b" ≠ "\"" ++ "a\\b" ++ "\"" :=
  ⟨rfl, rfl, rfl, by decide⟩

/-- C5 (amended): non-TXT values and already-quoted TXT values pass through
unchanged; an unquoted TXT value is JSON-encoded, which coincides with plain
quote-wrapping exactly when every character is printable ASCII other than the
quote and the backslash. -/
theorem C5_txt_normalization (rtype value : String) :
    (pyUpper rtype ≠ "TXT" → normalizeRecordValue rtype value = value)
    ∧ (valueIsQuoted value = true → normalizeRecordValue rtype value = value)
    ∧ (pyUpper rtype = "TXT" → valueIsQuoted value = false →
        normalizeRecordValue rtype value = jsonDumpsString value)
    ∧ (pyUpper rtype = "TXT" → valueIsQuoted value = false →
        value.data.all plainTextChar = true →
        normalizeRecordValue rtype value = "\"" ++ value ++ "\"") := by
  refine ⟨?_, ?_, ?_, ?_⟩
  · intro h
    simp [normalizeRecordValue, h]
  · intro h
    by_cases ht : pyUpper rtype = "TXT" <;> simp [normalizeRecordValue, ht, h]
  · intro ht hq
    simp [normalizeRecordValue, ht, hq]
  · intro ht hq hplain
    rw [normalizeRecordValue]
    simp only [ht, beq_self_eq_true, if_true, hq, Bool.false_eq_true, if_false]
    exact jsonDumps_plain value hplain

/-- C5 witness: concrete values exercising the pass-through, quoted and
quote-wrapping branches. -/
theorem C5_witness :
    (pyUpper "A" ≠ "TXT" ∧ normalizeRecordValue "A" "1.2.3.4" = "1.2.3.4")
    ∧ (valueIsQuoted "\"q\"" = true ∧ normalizeRecordValue "TXT" "\"q\"" = "\"q\"")
    ∧ normalizeRecordValue "TXT" "hello world" = "\"" ++ "hello world" ++ "\"" :=
  ⟨⟨by decide, (C5_txt_normalization "A" "1.2.3.4").1 (by decide)⟩,
   ⟨rfl, (C5_txt_normalization "TXT" "\"q\"").2.1 rfl⟩,
   (C5_txt_normalization "TXT" "hello world").2.2.2 rfl rfl (by decide)⟩

/-- C8 (counterexample): with owner "alice" and an explicitly provided but empty
project string, `build_tag_list` appends no Project pair, so the pair is not
appended "exactly when project is provided" — Python's `if project:` also drops a
provided empty string. -/
theorem C8_counterexample :
    build_tag_list "alice" (some "") none
      = [⟨"CreatedBy", "project-cli"⟩, ⟨"Owner", "alice"⟩]
    ∧ (build_tag_list "alice" (some "") none).all (fun t => t.key != "Project") = true
    ∧ some "" ≠ (none : Option String) := by
  refine ⟨by decide, by decide, by decide⟩

/-- C8 (amended): the tag list always starts with the attribution pair followed by
the owner pair, and contains a Project (resp. Environment) pair exactly when the
project (resp. environment) argument is provided and non-empty; owner emptiness is
not validated by the function itself. -/
theorem C8_build_tags (owner : String) (project env : Option String)
    (howner : owner ≠ "") :
    (build_tag_list owner project env).take 2
        = [⟨"CreatedBy", "project-cli"⟩, ⟨"Owner", owner⟩]
    ∧ (∀ p : String, (⟨"Project", p⟩ : Tag) ∈ build_tag_list owner project env
        ↔ (project = some p ∧ p ≠ ""))
    ∧ (∀ e : String, (⟨"Environment", e⟩ : Tag) ∈ build_tag_list owner project env
        ↔ (env = some e ∧ e ≠ "")) := by
  refine ⟨?_, ?_, ?_⟩
  · rcases project with _ | p₀ <;> rcases env with _ | e₀
    · rfl
    · by_cases he : e₀ = "" <;> simp [build_tag_list, createdByValue, he]
    · by_cases hp : p₀ = "" <;> simp [build_tag_list, createdByValue, hp]
    · by_cases hp : p₀ = "" <;> by_cases he : e₀ = "" <;>
        simp [build_tag_list, createdByValue, hp, he]
  · intro p
    rw [mem_build_tag_list]
    constructor
    · rintro (h | h | ⟨p', hp', hne, ht⟩ | ⟨e', he', hne, ht⟩)
      · injection h with hk hv
        exact absurd hk (by decide)
      · injection h with hk hv
        exact absurd hk (by decide)
      · injection ht with hk hv
        exact ⟨hv.symm ▸ hp', hv.symm ▸ hne⟩
      · injection ht with hk hv
        exact absurd hk (by decide)
    · rintro ⟨hp, hne⟩
      exact Or.inr (Or.inr (Or.inl ⟨p, hp, hne, rfl⟩))
  · intro e
    rw [mem_build_tag_list]
    constructor
    · rintro (h | h | ⟨p', hp', hne, ht⟩ | ⟨e', he', hne, ht⟩)
      · injection h with hk hv
        exact absurd hk (by decide)
      · injection h with hk hv
        exact absurd hk (by decide)
      · injection ht with hk hv
        exact absurd hk (by decide)
      · injection ht with hk hv
        exact ⟨hv.symm ▸ he', hv.symm ▸ hne⟩
    · rintro ⟨he, hne⟩
      exact Or.inr (Or.inr (Or.inr ⟨e, he, hne, rfl⟩))

/-- C8 witness: the amended characterization at concrete arguments. -/
theorem C8_witness :
    (build_tag_list "alice" (some "demo") (some "dev")).take 2
        = [⟨"CreatedBy", "project-cli"⟩, ⟨"Owner", "alice"⟩]
    ∧ ((⟨"Project", "demo"⟩ : Tag) ∈ build_tag_list "alice" (some "demo") (some "dev")
        ↔ (some "demo" = some "demo" ∧ "demo" ≠ "")) :=
  ⟨(C8_build_tags "alice" (some "demo") (some "dev") (by decide)).1,
   (C8_build_tags "alice" (some "demo") (some "dev") (by decide)).2.1 "demo"⟩

/-- C9 (counterexample): a world holding exactly one attribution-tagged instance
in state `stopped` (and no buckets or zones) has a non-empty counted compute
family, yet the status report's "active resources present" boolean is false —
stopped instances do not count towards it. -/
theorem C9_counterexample :
    (status ⟨[⟨"i-cccccccc", "stopped", "t3.micro",
        [⟨"CreatedBy", "project-cli"⟩]⟩], [], []⟩ none).stopped = 1
    ∧ (status ⟨[⟨"i-cccccccc", "stopped", "t3.micro",
        [⟨"CreatedBy", "project-cli"⟩]⟩], [], []⟩ none).active = false := by
  refine ⟨by decide, by decide⟩

/-- C9 (amended): the "active resources present" boolean is true exactly when some
counted instance is in state running or pending, or some bucket is counted, or
some zone is counted; counted instances in other states (e.g. stopped) do not make
it true. -/
theorem C9_active_flag (w : CloudState) (owner : Option String) :
    (status w owner).active = true ↔
      ((∃ i ∈ w.instances, statusEc2Counted i owner = true
          ∧ (i.state = "running" ∨ i.state = "pending"))
       ∨ (∃ b ∈ w.buckets, statusBucketCounted b owner = true)
       ∨ (∃ z ∈ w.zones, statusZoneCounted z owner = true)) := by
  have hgen : ∀ s : String,
      0 < ((w.instances.filter (fun i => statusEc2Counted i owner)).filter
          (fun i => i.state == s)).length ↔
        ∃ i ∈ w.instances, statusEc2Counted i owner = true ∧ i.state = s := by
    intro s
    rw [length_pos_filter_iff]
    constructor
    · rintro ⟨i, hi, hs⟩
      rcases List.mem_filter.mp hi with ⟨hmem, hc⟩
      exact ⟨i, hmem, hc, by simpa using hs⟩
    · rintro ⟨i, hmem, hc, hs⟩
      exact ⟨i, List.mem_filter.mpr ⟨hmem, hc⟩, by simpa using hs⟩
  have hbz : 0 < (w.buckets.filter (fun b => statusBucketCounted b owner)).length ↔
      ∃ b ∈ w.buckets, statusBucketCounted b owner = true := length_pos_filter_iff _ _
  have hzz : 0 < (w.zones.filter (fun z => statusZoneCounted z owner)).length ↔
      ∃ z ∈ w.zones, statusZoneCounted z owner = true := length_pos_filter_iff _ _
  simp only [status, Bool.or_eq_true, decide_eq_true_eq, gt_iff_lt]
  rw [add_pos_iff, hgen "running", hgen "pending", hbz, hzz]
  constructor
  · rintro (((⟨i, hm, hc, hs⟩ | ⟨i, hm, hc, hs⟩) | h) | h)
    · exact Or.inl ⟨i, hm, hc, Or.inl hs⟩
    · exact Or.inl ⟨i, hm, hc, Or.inr hs⟩
    · exact Or.inr (Or.inl h)
    · exact Or.inr (Or.inr h)
  · rintro (⟨i, hm, hc, hs | hs⟩ | h | h)
    · exact Or.inl (Or.inl (Or.inl ⟨i, hm, hc, hs⟩))
    · exact Or.inl (Or.inl (Or.inr ⟨i, hm, hc, hs⟩))
    · exact Or.inl (Or.inr h)
    · exact Or.inr h

/-- C9 witness: a world with one counted bucket has an active report. -/
theorem C9_witness :
    (status ⟨[], [⟨"b1", some [⟨"CreatedBy", "project-cli"⟩]⟩], []⟩ none).active
      = true :=
  (C9_active_flag ⟨[], [⟨"b1", some [⟨"CreatedBy", "project-cli"⟩]⟩], []⟩ none).mpr
    (Or.inr (Or.inl ⟨⟨"b1", some [⟨"CreatedBy", "project-cli"⟩]⟩,
      List.mem_singleton.mpr rfl, by decide⟩))

/-- C10: when the provider tag-read for a bucket or hosted zone fails with a
client error (modelled as `tagsRead`/lookup `none`), the ownership helpers return
false, so upload, bucket delete, record list, record upsert (create/update) and
record delete all refuse with an authorization failure and exit code 2, issuing no
state-changing call. -/
theorem C10_fail_closed (bw : List Bucket) (zw : List Zone)
    (bucket filepath zoneId name rtype value : String) (ttl : Int)
    (key : Option String) (force yes confirmAnswer versioned : Bool)
    (hb : lookupBucketTags bw bucket = none)
    (hz : lookupZoneTags zw zoneId = none)
    (hbn : bucket ≠ "") (hfp : filepath ≠ "")
    (hzn : zoneId ≠ "") (hn : name ≠ "") (hv : value ≠ "")
    (hr : rtypeChoices.contains (pyUpper rtype) = true) :
    _bucket_has_cli_tag bw bucket = false
    ∧ _zone_is_cli_owned zw zoneId = false
    ∧ upload_object bw bucket filepath key = .error .authorization
    ∧ delete_bucket bw bucket force yes confirmAnswer versioned = .error .authorization
    ∧ list_records zw zoneId = .error .authorization
    ∧ create_record zw zoneId name rtype value ttl = .error .authorization
    ∧ update_record zw zoneId name rtype value ttl = .error .authorization
    ∧ delete_record zw zoneId name rtype value ttl yes confirmAnswer
        = .error .authorization
    ∧ exitCode .authorization = 2 := by
  have hbt : _bucket_has_cli_tag bw bucket = false := by
    rw [_bucket_has_cli_tag, hb]
  have hzt : _zone_is_cli_owned zw zoneId = false := by
    rw [_zone_is_cli_owned, hz]
  have hrm : pyUpper rtype ∈ rtypeChoices := by simpa using hr
  refine ⟨hbt, hzt, ?_, ?_, ?_, ?_, ?_, ?_, rfl⟩
  · simp [upload_object, hbn, hfp, hbt]
  · simp [delete_bucket, hbn, hbt]
  · simp [list_records, hzn, hzt]
  · simp [create_record, hr, hrm, hzn, hn, hv, hzt]
  · simp [update_record, hr, hrm, hzn, hn, hv, hzt]
  · simp [delete_record, hr, hrm, hzn, hn, hv, hzt]

/-- C10 witness: a bucket and a zone whose tag reads fail are refused concretely. -/
theorem C10_witness :
    lookupBucketTags [⟨"b-untagged", none⟩] "b-untagged" = none
    ∧ upload_object [⟨"b-untagged", none⟩] "b-untagged" "./f.txt" none
        = .error .authorization
    ∧ create_record [⟨"Z123", none⟩] "Z123" "www" "A" "1.2.3.4" 300
        = .error .authorization :=
  ⟨rfl,
   (C10_fail_closed [⟨"b-untagged", none⟩] [⟨"Z123", none⟩] "b-untagged" "./f.txt"
      "Z123" "www" "A" "1.2.3.4" 300 none false false false false rfl rfl
      (by decide) (by decide) (by decide) (by decide) (by decide) (by decide)).2.2.1,
   (C10_fail_closed [⟨"b-untagged", none⟩] [⟨"Z123", none⟩] "b-untagged" "./f.txt"
      "Z123" "www" "A" "1.2.3.4" 300 none false false false false rfl rfl
      (by decide) (by decide) (by decide) (by decide) (by decide)
      (by decide)).2.2.2.2.2.1⟩

theorem applyChange_congr (recs : List RecordSetSpec) (c₁ c₂ : RecordChange)
    (h : changeIgnoringComment c₁ = changeIgnoringComment c₂) :
    applyChange recs c₁ = applyChange recs c₂ := by
  have ha : c₁.action = c₂.action := congrArg Prod.fst h
  have hr : c₁.recordSet = c₂.recordSet := congrArg Prod.snd h
  unfold applyChange
  rw [ha, hr]

/-- C6: create-record and update-record are semantically identical — on every
input and provider state they perform the same guards and normalization and their
results agree up to the free-text batch comment, so the submitted UPSERT record
set and the resulting record state coincide. -/
theorem C6_create_update_equiv (w : List Zone) (zoneId name rtype value : String)
    (ttl : Int) :
    ((create_record w zoneId name rtype value ttl).map changeIgnoringComment
      = (update_record w zoneId name rtype value ttl).map changeIgnoringComment)
    ∧ (∀ (recs : List RecordSetSpec) (c₁ c₂ : RecordChange),
        create_record w zoneId name rtype value ttl = .ok c₁ →
        update_record w zoneId name rtype value ttl = .ok c₂ →
        applyChange recs c₁ = applyChange recs c₂) := by
  have hmap : (create_record w zoneId name rtype value ttl).map changeIgnoringComment
      = (update_record w zoneId name rtype value ttl).map changeIgnoringComment := by
    unfold create_record update_record
    repeat' split
    all_goals simp_all [Except.map, changeIgnoringComment]
  refine ⟨hmap, ?_⟩
  intro recs c₁ c₂ h₁ h₂
  apply applyChange_congr
  rw [h₁, h₂] at hmap
  simpa [Except.map] using hmap

/-- C6 witness: at a concrete cli-owned zone, both commands submit the same
upsert modulo comment, and applying either change yields the same record state. -/
theorem C6_witness :
    applyChange [] ⟨"UPSERT", "project-cli create-record", ⟨"www.", "A", 300, "1.2.3.4"⟩⟩
      = applyChange [] ⟨"UPSERT", "project-cli update-record",
          ⟨"www.", "A", 300, "1.2.3.4"⟩⟩ :=
  (C6_create_update_equiv [⟨"Z6", some [⟨"CreatedBy", "project-cli"⟩]⟩]
      "Z6" "www" "A" "1.2.3.4" 300).2 [] _ _ (by rfl) (by rfl)

theorem terminate_ok_ids (w : List Ec2Instance) (tokens : List String) (yes : Bool)
    (ci : String) (ids : List String)
    (h : terminate_instances w tokens yes ci = .ok (.terminated ids)) :
    ids = terminateAllowed w (_resolve_tokens_to_instance_ids w tokens).1 := by
  simp only [terminate_instances] at h
  split at h
  · exact Except.noConfusion h
  · split at h
    · exact Except.noConfusion h
    · split at h
      · split at h
        · exact Except.noConfusion h
        · split at h
          · injection h with h'
            exact TerminateOutcome.noConfusion h'
          · injection h with h'
            injection h' with h''
            exact h''.symm
      · exact Except.noConfusion h

/-- C1 (counterexample): in a terminate batch containing a tagged member A and an
untagged member B, the command does not fail with exit code 2 — it warns, skips B,
issues the batch terminate call on A alone, and exits 0. -/
theorem C1_counterexample :
    findInstance
        [⟨"i-aaaaaaaa", "running", "t3.micro", [⟨"CreatedBy", "project-cli"⟩]⟩,
         ⟨"i-bbbbbbbb", "running", "t3.micro", []⟩] "i-bbbbbbbb"
      = some ⟨"i-bbbbbbbb", "running", "t3.micro", []⟩
    ∧ hasCliTag ([] : List Tag) = false
    ∧ terminate_instances
        [⟨"i-aaaaaaaa", "running", "t3.micro", [⟨"CreatedBy", "project-cli"⟩]⟩,
         ⟨"i-bbbbbbbb", "running", "t3.micro", []⟩]
        ["i-aaaaaaaa", "i-bbbbbbbb"] true ""
      = .ok (.terminated ["i-aaaaaaaa"]) :=
  ⟨by rfl, by rfl, by rfl⟩

/-- C1 (amended): a single-target mutating command (start, stop), an upload, a
bucket delete, a record upsert (create/update) or a record delete whose target
resource (or owning bucket/zone) lacks the attribution tag fails with an
authorization error and exit code 2 before issuing any state-changing call; the
terminate batch instead skips untagged members — every id in the submitted batch
terminate call belongs to an instance whose fresh read carries the tag, so an
untagged member is never part of the call. -/
theorem C1_tag_guard :
    (∀ (w : List Ec2Instance) (token id : String) (inst : Ec2Instance),
        token ≠ "" → resolveSingleTarget w token = .ok id →
        findInstance w id = some inst → hasCliTag inst.tags = false →
        start_instance w token = .error .authorization
          ∧ exitCode .authorization = 2)
    ∧ (∀ (w : List Ec2Instance) (token id : String) (force : Bool)
          (inst : Ec2Instance),
        token ≠ "" → resolveSingleTarget w token = .ok id →
        findInstance w id = some inst → hasCliTag inst.tags = false →
        stop_instance w token force = .error .authorization)
    ∧ (∀ (bw : List Bucket) (bucket filepath : String) (key : Option String),
        bucket ≠ "" → filepath ≠ "" → _bucket_has_cli_tag bw bucket = false →
        upload_object bw bucket filepath key = .error .authorization)
    ∧ (∀ (bw : List Bucket) (bucket : String) (force yes ca v : Bool),
        bucket ≠ "" → _bucket_has_cli_tag bw bucket = false →
        delete_bucket bw bucket force yes ca v = .error .authorization)
    ∧ (∀ (zw : List Zone) (zoneId name rtype value : String) (ttl : Int),
        rtypeChoices.contains (pyUpper rtype) = true →
        zoneId ≠ "" → name ≠ "" → value ≠ "" →
        _zone_is_cli_owned zw zoneId = false →
        create_record zw zoneId name rtype value ttl = .error .authorization)
    ∧ (∀ (zw : List Zone) (zoneId name rtype value : String) (ttl : Int),
        rtypeChoices.contains (pyUpper rtype) = true →
        zoneId ≠ "" → name ≠ "" → value ≠ "" →
        _zone_is_cli_owned zw zoneId = false →
        update_record zw zoneId name rtype value ttl = .error .authorization)
    ∧ (∀ (zw : List Zone) (zoneId name rtype value : String) (ttl : Int)
          (yes ca : Bool),
        rtypeChoices.contains (pyUpper rtype) = true →
        zoneId ≠ "" → name ≠ "" → value ≠ "" →
        _zone_is_cli_owned zw zoneId = false →
        delete_record zw zoneId name rtype value ttl yes ca = .error .authorization)
    ∧ (∀ (w : List Ec2Instance) (tokens : List String) (yes : Bool) (ci : String)
          (ids : List String),
        terminate_instances w tokens yes ci = .ok (.terminated ids) →
        ∀ id ∈ ids, ∃ inst, findInstance w id = some inst
          ∧ hasCliTag inst.tags = true)
    ∧ (∀ (w : List Ec2Instance) (tokens : List String) (yes : Bool) (ci : String)
          (inst : Ec2Instance) (id : String),
        findInstance w id = some inst → hasCliTag inst.tags = false →
        ∀ ids, terminate_instances w tokens yes ci = .ok (.terminated ids) →
          id ∉ ids) := by
  have hterm : ∀ (w : List Ec2Instance) (tokens : List String) (yes : Bool)
      (ci : String) (ids : List String),
      terminate_instances w tokens yes ci = .ok (.terminated ids) →
      ∀ id ∈ ids, ∃ inst, findInstance w id = some inst
        ∧ hasCliTag inst.tags = true := by
    intro w tokens yes ci ids h id hid
    rw [terminate_ok_ids w tokens yes ci ids h] at hid
    exact mem_terminateAllowed_elim _ _ _ hid
  refine ⟨?_, ?_, ?_, ?_, ?_, ?_, ?_, hterm, ?_⟩
  · intro w token id inst htok hres hfind htag
    refine ⟨?_, rfl⟩
    simp [start_instance, htok, hres, hfind, htag]
  · intro w token id force inst htok hres hfind htag
    simp [stop_instance, htok, hres, hfind, htag]
  · intro bw bucket filepath key hbn hfp htag
    simp [upload_object, hbn, hfp, htag]
  · intro bw bucket force yes ca v hbn htag
    simp [delete_bucket, hbn, htag]
  · intro zw zoneId name rtype value ttl hr hzn hn hv htag
    have hrm : pyUpper rtype ∈ rtypeChoices := by simpa using hr
    simp [create_record, hr, hrm, hzn, hn, hv, htag]
  · intro zw zoneId name rtype value ttl hr hzn hn hv htag
    have hrm : pyUpper rtype ∈ rtypeChoices := by simpa using hr
    simp [update_record, hr, hrm, hzn, hn, hv, htag]
  · intro zw zoneId name rtype value ttl yes ca hr hzn hn hv htag
    have hrm : pyUpper rtype ∈ rtypeChoices := by simpa using hr
    simp [delete_record, hr, hrm, hzn, hn, hv, htag]
  · intro w tokens yes ci inst id hfind htag ids h hid
    rcases hterm w tokens yes ci ids h id hid with ⟨inst', hfind', htag'⟩
    rw [hfind] at hfind'
    injection hfind' with he
    rw [← he] at htag'
    rw [htag] at htag'
    exact Bool.noConfusion htag'

/-- C1 witness: concrete untagged targets are refused by start, upload and
create-record. -/
theorem C1_witness :
    start_instance [⟨"i-cccccccc", "stopped", "t3.micro", []⟩] "i-cccccccc"
        = .error .authorization
    ∧ upload_object [⟨"bkt", none⟩] "bkt" "f.txt" none = .error .authorization
    ∧ create_record [⟨"Z1", some []⟩] "Z1" "www" "A" "1.2.3.4" 300
        = .error .authorization :=
  ⟨(C1_tag_guard.1 [⟨"i-cccccccc", "stopped", "t3.micro", []⟩] "i-cccccccc"
      "i-cccccccc" ⟨"i-cccccccc", "stopped", "t3.micro", []⟩
      (by decide) (by rfl) (by rfl) (by rfl)).1,
   C1_tag_guard.2.2.1 [⟨"bkt", none⟩] "bkt" "f.txt" none
      (by decide) (by decide) (by rfl),
   C1_tag_guard.2.2.2.2.1 [⟨"Z1", some []⟩] "Z1" "www" "A" "1.2.3.4" 300
      (by rfl) (by decide) (by decide) (by decide) (by rfl)⟩

/-- C4: a name token matching more than one instance makes each single-target
command (start, stop, describe) fail with the ambiguity error carrying every
matched identifier and exit code 2, before any state-transition call; terminate
instead accepts all matches and proceeds: it succeeds and its batch call contains
every matched identifier. -/
theorem C4_ambiguity (w : List Ec2Instance) (token : String) (force : Bool)
    (htok : token ≠ "") (hname : isInstanceIdToken token = false)
    (hlen : 2 ≤ (_resolve_name_to_ids w token).length)
    (hnd : (w.map (fun i => i.instanceId)).Nodup) :
    start_instance w token
        = .error (.ambiguous token (_resolve_name_to_ids w token))
    ∧ stop_instance w token force
        = .error (.ambiguous token (_resolve_name_to_ids w token))
    ∧ describe_instance w token
        = .error (.ambiguous token (_resolve_name_to_ids w token))
    ∧ exitCode (.ambiguous token (_resolve_name_to_ids w token)) = 2
    ∧ (∃ ids, terminate_instances w [token] true "" = .ok (.terminated ids)
        ∧ ∀ id ∈ _resolve_name_to_ids w token, id ∈ ids) := by
  have hmne : _resolve_name_to_ids w token ≠ [] := by
    intro hx; rw [hx] at hlen; simp at hlen
  have hres : resolveSingleTarget w token
      = .error (.ambiguous token (_resolve_name_to_ids w token)) := by
    unfold resolveSingleTarget
    rw [if_neg (by simp [hname])]
    rcases hm : _resolve_name_to_ids w token with _ | ⟨a, rest⟩
    · rw [hm] at hlen; simp at hlen
    · rcases rest with _ | ⟨b, l⟩
      · rw [hm] at hlen; simp at hlen
      · rfl
  have htokens1 : (_resolve_tokens_to_instance_ids w [token]).1
      = dedupFirst (_resolve_name_to_ids w token) [] := by
    have hne : (_resolve_name_to_ids w token).isEmpty = false := by
      rcases hm : _resolve_name_to_ids w token with _ | _
      · exact absurd hm hmne
      · rfl
    simp [_resolve_tokens_to_instance_ids, List.filter_cons, hname, resolveStep, hne]
  have hmem1 : ∀ id ∈ _resolve_name_to_ids w token,
      id ∈ (_resolve_tokens_to_instance_ids w [token]).1 := by
    intro id hid
    rw [htokens1]
    exact (mem_dedupFirst id _ []).mpr ⟨hid, List.not_mem_nil id⟩
  have hfindtag : ∀ id ∈ _resolve_name_to_ids w token,
      ∃ inst, findInstance w id = some inst ∧ hasCliTag inst.tags = true := by
    intro id hid
    rcases resolve_name_mem w token id hid with ⟨inst, hw, hid2, htag⟩
    refine ⟨inst, ?_, htag⟩
    rw [← hid2]
    exact findInstance_eq_of_nodup w hnd inst hw
  obtain ⟨a, ha⟩ : ∃ a, a ∈ _resolve_name_to_ids w token := by
    rcases hm : _resolve_name_to_ids w token with _ | ⟨a, rest⟩
    · exact absurd hm hmne
    · exact ⟨a, List.mem_cons_self a rest⟩
  have ha1 : a ∈ (_resolve_tokens_to_instance_ids w [token]).1 := hmem1 a ha
  have h2 : (_resolve_tokens_to_instance_ids w [token]).1.isEmpty = false := by
    rcases hx : (_resolve_tokens_to_instance_ids w [token]).1 with _ | _
    · rw [hx] at ha1; exact absurd ha1 (List.not_mem_nil a)
    · rfl
  have h3 : ((_resolve_tokens_to_instance_ids w [token]).1.all
      (fun id => (findInstance w id).isSome)) = true := by
    rw [List.all_eq_true]
    intro id hid
    rw [htokens1] at hid
    have hid2 := ((mem_dedupFirst id _ []).mp hid).1
    rcases hfindtag id hid2 with ⟨inst, hfind, _⟩
    simp [hfind]
  have hamem : a ∈ terminateAllowed w (_resolve_tokens_to_instance_ids w [token]).1 := by
    rcases hfindtag a ha with ⟨inst, hfind, htag⟩
    exact mem_terminateAllowed_intro w _ a inst ha1 hfind htag
  have h4 : (terminateAllowed w
      (_resolve_tokens_to_instance_ids w [token]).1).isEmpty = false := by
    rcases hx : terminateAllowed w (_resolve_tokens_to_instance_ids w [token]).1
        with _ | _
    · rw [hx] at hamem; exact absurd hamem (List.not_mem_nil a)
    · rfl
  have hterm : terminate_instances w [token] true ""
      = .ok (.terminated (terminateAllowed w
          (_resolve_tokens_to_instance_ids w [token]).1)) := by
    simp [terminate_instances, h2, h3, h4]
  refine ⟨?_, ?_, ?_, rfl,
    ⟨terminateAllowed w (_resolve_tokens_to_instance_ids w [token]).1, hterm, ?_⟩⟩
  · simp [start_instance, htok, hres]
  · simp [stop_instance, htok, hres]
  · simp [describe_instance, htok, hres]
  · intro id hid
    rcases hfindtag id hid with ⟨inst, hfind, htag⟩
    exact mem_terminateAllowed_intro w _ id inst (hmem1 id hid) hfind htag

/-- The two-instance world of the "ambiguous name" scenario: both instances are
attribution-tagged and named "web". -/
def c4World : List Ec2Instance :=
  [⟨"i-aaaaaaa1", "running", "t3.micro",
      [⟨"CreatedBy", "project-cli"⟩, ⟨"Name", "web"⟩]⟩,
   ⟨"i-aaaaaaa2", "running", "t3.micro",
      [⟨"CreatedBy", "project-cli"⟩, ⟨"Name", "web"⟩]⟩]

/-- C4 witness: the name "web" matching two instances makes start fail with the
ambiguity error listing both ids, while terminate proceeds with both. -/
theorem C4_witness :
    _resolve_name_to_ids c4World "web" = ["i-aaaaaaa1", "i-aaaaaaa2"]
    ∧ start_instance c4World "web"
        = .error (.ambiguous "web" (_resolve_name_to_ids c4World "web"))
    ∧ (∃ ids, terminate_instances c4World ["web"] true "" = .ok (.terminated ids)
        ∧ ∀ id ∈ _resolve_name_to_ids c4World "web", id ∈ ids) :=
  ⟨by rfl,
   (C4_ambiguity c4World "web" false (by decide) (by rfl) (by rfl) (by decide)).1,
   (C4_ambiguity c4World "web" false (by decide) (by rfl) (by rfl)
      (by decide)).2.2.2.2⟩

/-- C7: `_resolve_tokens_to_instance_ids` returns (a) the accumulated identifier
list (identifier tokens, then each matched name's identifiers in order) with
duplicates removed keeping each identifier's first occurrence — hence without
duplicates, order-preserving, and with exactly the accumulated members — (b) the
names that matched nothing, in order, and (c) a map whose entries are exactly the
matched names paired with the identifiers they resolved to. -/
theorem C7_resolve_tokens (w : List Ec2Instance) (tokens : List String) :
    (_resolve_tokens_to_instance_ids w tokens).1
      = firstOccur ((tokens.filter (fun t => isInstanceIdToken t))
          ++ ((tokens.filter (fun t => !isInstanceIdToken t)).map
              (fun nm => _resolve_name_to_ids w nm)).flatten)
    ∧ (_resolve_tokens_to_instance_ids w tokens).1.Nodup
    ∧ (_resolve_tokens_to_instance_ids w tokens).1.Sublist
        ((tokens.filter (fun t => isInstanceIdToken t))
          ++ ((tokens.filter (fun t => !isInstanceIdToken t)).map
              (fun nm => _resolve_name_to_ids w nm)).flatten)
    ∧ (∀ x, x ∈ (_resolve_tokens_to_instance_ids w tokens).1
        ↔ x ∈ (tokens.filter (fun t => isInstanceIdToken t))
            ++ ((tokens.filter (fun t => !isInstanceIdToken t)).map
                (fun nm => _resolve_name_to_ids w nm)).flatten)
    ∧ (_resolve_tokens_to_instance_ids w tokens).2.1
      = (tokens.filter (fun t => !isInstanceIdToken t)).filter
          (fun nm => (_resolve_name_to_ids w nm).isEmpty)
    ∧ (∀ p ∈ (_resolve_tokens_to_instance_ids w tokens).2.2,
        p.2 = _resolve_name_to_ids w p.1 ∧ p.2 ≠ [])
    ∧ (∀ nm ∈ tokens.filter (fun t => !isInstanceIdToken t),
        _resolve_name_to_ids w nm ≠ [] →
        (nm, _resolve_name_to_ids w nm)
          ∈ (_resolve_tokens_to_instance_ids w tokens).2.2) := by
  have h1 : (_resolve_tokens_to_instance_ids w tokens).1
      = dedupFirst ((tokens.filter (fun t => isInstanceIdToken t))
          ++ ((tokens.filter (fun t => !isInstanceIdToken t)).map
              (fun nm => _resolve_name_to_ids w nm)).flatten) [] := by
    simp only [_resolve_tokens_to_instance_ids]
    rw [resolveFold_fst]
  have h2 : (_resolve_tokens_to_instance_ids w tokens).2.1
      = (tokens.filter (fun t => !isInstanceIdToken t)).filter
          (fun nm => (_resolve_name_to_ids w nm).isEmpty) := by
    simp only [_resolve_tokens_to_instance_ids]
    rw [resolveFold_notfound]
    rfl
  have h3map : ∀ p ∈ (_resolve_tokens_to_instance_ids w tokens).2.2,
      p.2 = _resolve_name_to_ids w p.1 ∧ p.2 ≠ [] := by
    intro p hp
    refine resolveFold_map_sound w (tokens.filter (fun t => !isInstanceIdToken t))
      ((tokens.filter (fun t => isInstanceIdToken t)), [], []) ?_ p ?_
    · intro q hq; exact absurd hq (List.not_mem_nil q)
    · simpa [_resolve_tokens_to_instance_ids] using hp
  have h4map : ∀ nm ∈ tokens.filter (fun t => !isInstanceIdToken t),
      _resolve_name_to_ids w nm ≠ [] →
      (nm, _resolve_name_to_ids w nm)
        ∈ (_resolve_tokens_to_instance_ids w tokens).2.2 := by
    intro nm hnm hne
    have hne2 : (_resolve_name_to_ids w nm).isEmpty = false := by
      rcases hx : _resolve_name_to_ids w nm with _ | _
      · exact absurd hx hne
      · rfl
    have := resolveFold_map_complete w
      (tokens.filter (fun t => !isInstanceIdToken t))
      ((tokens.filter (fun t => isInstanceIdToken t)), [], []) nm
      (Or.inr ⟨hnm, hne2⟩)
    simpa [_resolve_tokens_to_instance_ids] using this
  refine ⟨?_, ?_, ?_, ?_, h2, h3map, h4map⟩
  · rw [h1, dedupFirst_eq_firstOccur]
    congr 1
    apply List.filter_eq_self.mpr
    intro a _
    simp
  · rw [h1]; exact dedupFirst_nodup _ _
  · rw [h1]; exact dedupFirst_sublist _ _
  · intro x
    rw [h1, mem_dedupFirst]
    simp

/-- C7 witness: a concrete mixed token list (a name matching two instances, a raw
identifier also among the matches, and an unmatched name) resolved against the
two-instance world. -/
theorem C7_witness :
    (_resolve_tokens_to_instance_ids c4World ["i-aaaaaaa2", "web", "gone"]).1.Nodup
    ∧ ((_resolve_tokens_to_instance_ids c4World ["i-aaaaaaa2", "web", "gone"]).2.1
      = (["i-aaaaaaa2", "web", "gone"].filter
          (fun t => !isInstanceIdToken t)).filter
            (fun nm => (_resolve_name_to_ids c4World nm).isEmpty)) :=
  ⟨(C7_resolve_tokens c4World ["i-aaaaaaa2", "web", "gone"]).2.1,
   (C7_resolve_tokens c4World ["i-aaaaaaa2", "web", "gone"]).2.2.2.2.1⟩

end PlatformCli
